import Mathlib

/-!
Verification development for the `ekadashi-calendar` repository.

The repository contains two one-shot JSON transformation scripts:

* `scripts/convert_to_pst_json.py` — converts raw date / 12-hour-clock time
  strings into ISO-8601 timestamps with a DST-dependent UTC offset, and maps
  raw entries to the normalized Ekadashi entry shape.
* `tool/fix_ekadashi_data.py` — rewrites a multi-year dataset document:
  metadata rewrite, per-entry IST timing corrections, filtering to year 2026,
  and identifier renumbering.

Both are embedded shallowly below: Python `datetime` values become a
five-field structure (seconds and microseconds are always zero in this
program), `strptime` with the fixed format `"%Y-%m-%d %I:%M %p"` becomes an
explicit character-list parser realizing CPython's compiled pattern for that
format, JSON documents become an inductive `Json` type, and statements that
can raise Python exceptions are modelled in an `Except PyErr` result type.
-/

namespace Ekadashi

/-! ## Shared string helper

`s.startswith(p)` on Python strings: the leading characters of `s` equal `p`.
-/

/-- Leading-characters test used both by the code model (`str.startswith`)
and by the pure specification functions. -/
def strStarts (p s : String) : Bool :=
  decide (s.data.take p.data.length = p.data)

/-! ## `scripts/convert_to_pst_json.py` : DST resolver -/

/-- A naive Python `datetime` as produced in this program: seconds and
microseconds are always zero, so five fields suffice. -/
structure DateTime where
  year : Nat
  month : Nat
  day : Nat
  hour : Nat
  minute : Nat
deriving DecidableEq, Repr

/-- Python `datetime` strict comparison: lexicographic on the fields. -/
def DateTime.lt (a b : DateTime) : Prop :=
  a.year < b.year ∨ (a.year = b.year ∧
    (a.month < b.month ∨ (a.month = b.month ∧
      (a.day < b.day ∨ (a.day = b.day ∧
        (a.hour < b.hour ∨ (a.hour = b.hour ∧ a.minute < b.minute)))))))

instance (a b : DateTime) : Decidable (DateTime.lt a b) := by
  unfold DateTime.lt; infer_instance

/-- Boolean form of `DateTime.lt`. -/
def DateTime.ltb (a b : DateTime) : Bool := decide (DateTime.lt a b)

/-- Python `a <= b` on datetimes; for the linear lexicographic order this is
the negation of `b < a`. -/
def DateTime.leb (a b : DateTime) : Bool := !(DateTime.ltb b a)

/-- `DST_START_2026 = datetime(2026, 3, 8, 2, 0)`. -/
def DST_START_2026 : DateTime := ⟨2026, 3, 8, 2, 0⟩

/-- `DST_END_2026 = datetime(2026, 11, 1, 2, 0)`. -/
def DST_END_2026 : DateTime := ⟨2026, 11, 1, 2, 0⟩

/-- `get_pst_offset`: `"-07:00"` (PDT) inside `[DST_START_2026, DST_END_2026)`,
`"-08:00"` (PST) otherwise. -/
def get_pst_offset (dt_obj : DateTime) : String :=
  if DST_START_2026.leb dt_obj && dt_obj.ltb DST_END_2026 then "-07:00"
  else "-08:00"

/-! ## `strptime("%Y-%m-%d %I:%M %p")` as a character parser

CPython's `_strptime` compiles this format to the anchored pattern
`(\d\d\d\d)-(1[0-2]|0[1-9]|[1-9])-(3[01]|[12]\d|0[1-9]|[1-9])\s+`
`(1[0-2]|0[1-9]|[1-9]):([0-5]\d|\d)\s+(AM|PM)` (case-insensitive, whole
string must be consumed), then validates the fields through the `datetime`
constructor.  Each numeric field below tries the alternatives in the
pattern's order; since every numeric field is followed by a non-digit
literal (or whitespace), first-match is equivalent to full backtracking. -/

/-- Numeric value of a digit character. -/
def digitVal (c : Char) : Nat := c.toNat - 48

/-- One decimal digit. -/
def parseDigit : List Char → Option (Nat × List Char)
  | c :: rest => if c.isDigit then some (digitVal c, rest) else none
  | [] => none

/-- Exactly four decimal digits (`%Y`). -/
def parse4 (s : List Char) : Option (Nat × List Char) := do
  let (a, s) ← parseDigit s
  let (b, s) ← parseDigit s
  let (c, s) ← parseDigit s
  let (d, s) ← parseDigit s
  some (((a * 10 + b) * 10 + c) * 10 + d, s)

/-- A required literal character. -/
def expectChar (c : Char) : List Char → Option (List Char)
  | c' :: rest => if c' = c then some rest else none
  | [] => none

/-- `1[0-2]|0[1-9]|[1-9]` — the pattern for both `%m` and `%I`. -/
def parseNum12 (s : List Char) : Option (Nat × List Char) :=
  match s with
  | c1 :: c2 :: rest =>
    if c1 = '1' ∧ (c2 = '0' ∨ c2 = '1' ∨ c2 = '2') then some (10 + digitVal c2, rest)
    else if c1 = '0' ∧ c2.isDigit ∧ c2 ≠ '0' then some (digitVal c2, rest)
    else if c1.isDigit ∧ c1 ≠ '0' then some (digitVal c1, c2 :: rest)
    else none
  | [c1] => if c1.isDigit ∧ c1 ≠ '0' then some (digitVal c1, []) else none
  | [] => none

/-- `3[01]|[12]\d|0[1-9]|[1-9]` — the pattern for `%d`. -/
def parseDay (s : List Char) : Option (Nat × List Char) :=
  match s with
  | c1 :: c2 :: rest =>
    if c1 = '3' ∧ (c2 = '0' ∨ c2 = '1') then some (30 + digitVal c2, rest)
    else if (c1 = '1' ∨ c1 = '2') ∧ c2.isDigit then some (digitVal c1 * 10 + digitVal c2, rest)
    else if c1 = '0' ∧ c2.isDigit ∧ c2 ≠ '0' then some (digitVal c2, rest)
    else if c1.isDigit ∧ c1 ≠ '0' then some (digitVal c1, c2 :: rest)
    else none
  | [c1] => if c1.isDigit ∧ c1 ≠ '0' then some (digitVal c1, []) else none
  | [] => none

/-- `[0-5]\d|\d` — the pattern for `%M`. -/
def parseMinute (s : List Char) : Option (Nat × List Char) :=
  match s with
  | c1 :: c2 :: rest =>
    if c1.isDigit ∧ digitVal c1 ≤ 5 ∧ c2.isDigit then
      some (digitVal c1 * 10 + digitVal c2, rest)
    else if c1.isDigit then some (digitVal c1, c2 :: rest)
    else none
  | [c1] => if c1.isDigit then some (digitVal c1, []) else none
  | [] => none

/-- `\s+`: at least one whitespace character, consumed greedily. -/
def skipWS1 : List Char → Option (List Char)
  | c :: rest => if c.isWhitespace then some (rest.dropWhile Char.isWhitespace) else none
  | [] => none

/-- `AM|PM`, case-insensitive (`%p`); `true` means PM. -/
def parseMeridiem : List Char → Option (Bool × List Char)
  | c1 :: c2 :: rest =>
    if (c1 = 'A' ∨ c1 = 'a') ∧ (c2 = 'M' ∨ c2 = 'm') then some (false, rest)
    else if (c1 = 'P' ∨ c1 = 'p') ∧ (c2 = 'M' ∨ c2 = 'm') then some (true, rest)
    else none
  | _ => none

/-- Gregorian leap-year rule, as used by `datetime`. -/
def isLeap (y : Nat) : Bool := y % 4 = 0 ∧ (¬ y % 100 = 0 ∨ y % 400 = 0)

/-- Number of days in a month, as validated by the `datetime` constructor. -/
def daysInMonth (y m : Nat) : Nat :=
  if m = 2 then (if isLeap y then 29 else 28)
  else if m = 4 ∨ m = 6 ∨ m = 9 ∨ m = 11 then 30
  else 31

/-- The range validation performed by the `datetime` constructor
(`ValueError`, i.e. `none`, when out of range). -/
def mkDatetime (y m d h mi : Nat) : Option DateTime :=
  if 1 ≤ y ∧ y ≤ 9999 ∧ 1 ≤ m ∧ m ≤ 12 ∧ 1 ≤ d ∧ d ≤ daysInMonth y m ∧
      h ≤ 23 ∧ mi ≤ 59 then
    some ⟨y, m, d, h, mi⟩
  else none

/-- `datetime.strptime(s, "%Y-%m-%d %I:%M %p")`, returning `none` exactly
when CPython raises `ValueError` (pattern mismatch, leftover input, or
constructor range error).  The 12-hour value is folded with the meridiem
exactly as `_strptime` does. -/
def parseDateTime (s : List Char) : Option DateTime := do
  let (y, s) ← parse4 s
  let s ← expectChar '-' s
  let (m, s) ← parseNum12 s
  let s ← expectChar '-' s
  let (d, s) ← parseDay s
  let s ← skipWS1 s
  let (h12, s) ← parseNum12 s
  let s ← expectChar ':' s
  let (mi, s) ← parseMinute s
  let s ← skipWS1 s
  let (pm, s) ← parseMeridiem s
  if s = [] then
    let h := if pm then (if h12 = 12 then 12 else h12 + 12)
             else (if h12 = 12 then 0 else h12)
    mkDatetime y m d h mi
  else none

/-! ## `convert_time_to_iso` and the raw mapper -/

/-- Zero-padded two-digit rendering (`%m`, `%d`, `%H`, `%M` in `strftime`). -/
def pad2 (n : Nat) : String := if n < 10 then "0" ++ toString n else toString n

/-- Four-digit year rendering (`%Y` in `strftime`). -/
def pad4 (n : Nat) : String :=
  if n < 10 then "000" ++ toString n
  else if n < 100 then "00" ++ toString n
  else if n < 1000 then "0" ++ toString n
  else toString n

/-- `dt.strftime("%Y-%m-%dT%H:%M:%S" + offset)`; the second count is always
zero in this program. -/
def formatIso (dt : DateTime) (offset : String) : String :=
  pad4 dt.year ++ "-" ++ pad2 dt.month ++ "-" ++ pad2 dt.day ++ "T" ++
    pad2 dt.hour ++ ":" ++ pad2 dt.minute ++ ":00" ++ offset

/-- `convert_time_to_iso(date_str, time_str)`.  An empty string models a
falsy (empty or absent) input; parse failure maps to `none` via the caught
`ValueError`. -/
def convert_time_to_iso (date_str time_str : String) : Option String :=
  if date_str = "" ∨ time_str = "" then none
  else
    match parseDateTime (date_str ++ " " ++ time_str).data with
    | some dt => some (formatIso dt (get_pst_offset dt))
    | none => none

/-- One raw input entry of the raw converter (string fields of the input
JSON array; an empty string models an empty/absent value). -/
structure RawItem where
  name : String
  fasting_date : String
  parana_date : String
  parana_start : String
  parana_end : String
deriving DecidableEq, Repr

/-- The localized-name mapping `{"en": ...}` of an output entry. -/
structure NameMap where
  en : String
deriving DecidableEq, Repr

/-- The `"PST"` timing sub-record of an output entry. -/
structure PstTiming where
  date : String
  parana_start : Option String
  parana_end : Option String
deriving DecidableEq, Repr

/-- One output entry of the raw converter: `{id, name: {en}, timing: {PST}}`. -/
structure EkadashiEntry where
  id : Nat
  name : NameMap
  timing : PstTiming
deriving DecidableEq, Repr

/-- The body of the `for idx, item in enumerate(raw_data)` loop: build one
output entry from the raw entry at zero-based position `idx`. -/
def mkEntry (idx : Nat) (item : RawItem) : EkadashiEntry :=
  { id := idx + 1
    name := { en := item.name }
    timing :=
      { date := item.fasting_date
        parana_start := convert_time_to_iso item.parana_date item.parana_start
        parana_end := convert_time_to_iso item.parana_date item.parana_end } }

/-- The enumerate loop starting at position `idx`. -/
def processRawAux (idx : Nat) : List RawItem → List EkadashiEntry
  | [] => []
  | it :: rest => mkEntry idx it :: processRawAux (idx + 1) rest

/-- `main`'s mapping of the raw input array to the `ekadashis` output list. -/
def processRaw (items : List RawItem) : List EkadashiEntry :=
  processRawAux 0 items

/-! ## Lemmas about the raw converter -/

theorem get_pst_offset_eq (dt : DateTime) :
    get_pst_offset dt =
      if ¬ DateTime.lt dt DST_START_2026 ∧ DateTime.lt dt DST_END_2026 then "-07:00"
      else "-08:00" := by
  by_cases h1 : DateTime.lt dt DST_START_2026 <;>
    by_cases h2 : DateTime.lt dt DST_END_2026 <;>
      simp [get_pst_offset, DateTime.leb, DateTime.ltb, h1, h2]

theorem processRawAux_length (k : Nat) (l : List RawItem) :
    (processRawAux k l).length = l.length := by
  induction l generalizing k with
  | nil => rfl
  | cons it rest ih => simp [processRawAux, ih]

theorem processRawAux_getElem (k : Nat) (l : List RawItem) (i : Nat) :
    (processRawAux k l)[i]? = (l[i]?).map (fun it => mkEntry (k + i) it) := by
  induction l generalizing k i with
  | nil => simp [processRawAux]
  | cons it rest ih =>
    cases i with
    | zero => simp [processRawAux]
    | succ j =>
      have hk : k + 1 + j = k + (j + 1) := by omega
      simp only [processRawAux, List.getElem?_cons_succ, ih (k + 1) j, hk]

theorem processRawAux_map_id (k : Nat) (l : List RawItem) :
    (processRawAux k l).map EkadashiEntry.id = List.range' (k + 1) l.length := by
  induction l generalizing k with
  | nil => simp [processRawAux]
  | cons it rest ih => simp [processRawAux, List.range', ih, mkEntry]

theorem getElem?_append_middle {α : Type} (l₁ l₂ : List α) (e e' : α) (i : Nat)
    (hi : i ≠ l₁.length) : (l₁ ++ e :: l₂)[i]? = (l₁ ++ e' :: l₂)[i]? := by
  induction l₁ generalizing i with
  | nil =>
    cases i with
    | zero => exact absurd rfl hi
    | succ j => simp
  | cons a rest ih =>
    cases i with
    | zero => simp
    | succ j =>
      simp only [List.cons_append, List.getElem?_cons_succ]
      exact ih j (by simpa using hi)

/-! ## Claim theorems for the raw converter -/

/-- Claim C1: the DST-aware offset resolver returns the summer offset
`"-07:00"` exactly on the half-open interval
`[2026-03-08T02:00, 2026-11-01T02:00)` of local instants (start boundary
included, end boundary excluded), and the standard offset `"-08:00"` for
every other instant; it is total, always returning one of the two
offsets. -/
theorem dst_offset_interval (dt : DateTime) :
    (get_pst_offset dt = "-07:00" ↔
      (¬ DateTime.lt dt DST_START_2026 ∧ DateTime.lt dt DST_END_2026)) ∧
    (get_pst_offset dt = "-08:00" ↔
      ¬ (¬ DateTime.lt dt DST_START_2026 ∧ DateTime.lt dt DST_END_2026)) ∧
    (get_pst_offset dt = "-07:00" ∨ get_pst_offset dt = "-08:00") ∧
    get_pst_offset ⟨2026, 3, 8, 2, 0⟩ = "-07:00" ∧
    get_pst_offset ⟨2026, 3, 8, 1, 59⟩ = "-08:00" ∧
    get_pst_offset ⟨2026, 11, 1, 1, 59⟩ = "-07:00" ∧
    get_pst_offset ⟨2026, 11, 1, 2, 0⟩ = "-08:00" := by
  refine ⟨?_, ?_, ?_, by decide, by decide, by decide, by decide⟩ <;>
    · rw [get_pst_offset_eq]
      split <;> simp_all

/-- Claim C4: on valid inputs (nonempty date and time strings whose
combination parses against the fixed pattern), `convert_time_to_iso`
returns the 24-hour-clock ISO string with seconds `":00"` and the offset
resolved by `get_pst_offset`; in particular the two concrete conversions
from the specification hold. -/
theorem convert_time_to_iso_valid (d t : String) (dt : DateTime)
    (hd : d ≠ "") (ht : t ≠ "")
    (hp : parseDateTime (d ++ " " ++ t).data = some dt) :
    (convert_time_to_iso d t =
      some (pad4 dt.year ++ "-" ++ pad2 dt.month ++ "-" ++ pad2 dt.day ++ "T" ++
        pad2 dt.hour ++ ":" ++ pad2 dt.minute ++ ":00" ++ get_pst_offset dt)) ∧
    (get_pst_offset dt = "-07:00" ∨ get_pst_offset dt = "-08:00") ∧
    convert_time_to_iso "2026-06-15" "05:35 AM" = some "2026-06-15T05:35:00-07:00" ∧
    convert_time_to_iso "2026-12-01" "06:45 AM" = some "2026-12-01T06:45:00-08:00" := by
  refine ⟨?_, ?_, by decide, by decide⟩
  · unfold convert_time_to_iso
    rw [if_neg (by simp [hd, ht]), hp]
    rfl
  · rw [get_pst_offset_eq]; split <;> simp

/-- Witness for C4 at the specification's first concrete input. -/
theorem convert_time_to_iso_valid_witness :
    convert_time_to_iso "2026-06-15" "05:35 AM" =
      some (pad4 2026 ++ "-" ++ pad2 6 ++ "-" ++ pad2 15 ++ "T" ++
        pad2 5 ++ ":" ++ pad2 35 ++ ":00" ++ get_pst_offset ⟨2026, 6, 15, 5, 35⟩) :=
  (convert_time_to_iso_valid "2026-06-15" "05:35 AM" ⟨2026, 6, 15, 5, 35⟩
    (by decide) (by decide) (by decide)).1

/-- Claim C5: `convert_time_to_iso` is a total function into an option
type: an empty date or time string yields the explicit empty result, a
parse failure of the combined string yields the explicit empty result, and
every run either yields the empty result or a successful formatted
timestamp (the two outcomes being distinct constructors of `Option`). -/
theorem convert_time_to_iso_total (d t : String) :
    ((d = "" ∨ t = "") → convert_time_to_iso d t = none) ∧
    (parseDateTime (d ++ " " ++ t).data = none → convert_time_to_iso d t = none) ∧
    (convert_time_to_iso d t = none ∨
      ∃ dt, parseDateTime (d ++ " " ++ t).data = some dt ∧
        convert_time_to_iso d t = some (formatIso dt (get_pst_offset dt))) := by
  refine ⟨fun h => by simp [convert_time_to_iso, h], fun h => ?_, ?_⟩
  · by_cases he : d = "" ∨ t = ""
    · simp [convert_time_to_iso, he]
    · unfold convert_time_to_iso
      rw [if_neg he, h]
  · by_cases he : d = "" ∨ t = ""
    · exact Or.inl (by simp [convert_time_to_iso, he])
    · rcases hp : parseDateTime (d ++ " " ++ t).data with _ | dt
      · refine Or.inl ?_
        unfold convert_time_to_iso
        rw [if_neg he, hp]
      · refine Or.inr ⟨dt, rfl, ?_⟩
        unfold convert_time_to_iso
        rw [if_neg he, hp]

/-- Witness for C5: an empty time string and a malformed time string each
produce the explicit empty result. -/
theorem convert_time_to_iso_total_witness :
    convert_time_to_iso "2026-06-15" "" = none ∧
    convert_time_to_iso "2026-12-01" "garbage" = none :=
  ⟨(convert_time_to_iso_total "2026-06-15" "").1 (Or.inr rfl),
   (convert_time_to_iso_total "2026-12-01" "garbage").2.1 (by decide)⟩

/-- Claim C6: in the raw converter a bad or missing (empty) date or time
string in one entry is non-fatal and local: the full output list is still
produced, the affected entry is present with its parana fields equal to
whatever `convert_time_to_iso` yields on its strings (the explicit empty
result on failure), and every other output position is unaffected by that
entry's content. -/
theorem raw_converter_local_failure (l₁ l₂ : List RawItem) (e e' : RawItem)
    (i : Nat) (hi : i ≠ l₁.length) :
    (processRaw (l₁ ++ e :: l₂)).length = l₁.length + 1 + l₂.length ∧
    (processRaw (l₁ ++ e :: l₂))[l₁.length]? = some (mkEntry l₁.length e) ∧
    ((processRaw (l₁ ++ e :: l₂))[l₁.length]?).map (fun en => en.timing.parana_start) =
      some (convert_time_to_iso e.parana_date e.parana_start) ∧
    ((processRaw (l₁ ++ e :: l₂))[l₁.length]?).map (fun en => en.timing.parana_end) =
      some (convert_time_to_iso e.parana_date e.parana_end) ∧
    (processRaw (l₁ ++ e :: l₂))[i]? = (processRaw (l₁ ++ e' :: l₂))[i]? := by
  have hmid : (l₁ ++ e :: l₂)[l₁.length]? = some e := by
    rw [List.getElem?_append_right (Nat.le_refl l₁.length)]
    simp
  refine ⟨?_, ?_, ?_, ?_, ?_⟩
  · simp [processRaw, processRawAux_length]; omega
  · simp [processRaw, processRawAux_getElem, hmid]
  · simp [processRaw, processRawAux_getElem, hmid, mkEntry]
  · simp [processRaw, processRawAux_getElem, hmid, mkEntry]
  · simp only [processRaw, processRawAux_getElem,
      getElem?_append_middle l₁ l₂ e e' i hi]

/-- Witness for C6: a malformed `parana_start` in the middle entry yields
the explicit empty result there while leaving the neighbouring entry's
output unchanged. -/
theorem raw_converter_local_failure_witness :
    ((processRaw [⟨"A", "2026-01-01", "2026-01-02", "06:00 AM", "09:00 AM"⟩,
                  ⟨"B", "2026-02-01", "2026-02-02", "", "bad"⟩])[1]?).map
        (fun en => en.timing.parana_start) = some none ∧
    (processRaw [⟨"A", "2026-01-01", "2026-01-02", "06:00 AM", "09:00 AM"⟩,
                 ⟨"B", "2026-02-01", "2026-02-02", "", "bad"⟩])[0]? =
      (processRaw [⟨"A", "2026-01-01", "2026-01-02", "06:00 AM", "09:00 AM"⟩,
                   ⟨"B", "2026-02-01", "2026-02-02", "07:00 AM", "10:00 AM"⟩])[0]? := by
  have h := raw_converter_local_failure
    [⟨"A", "2026-01-01", "2026-01-02", "06:00 AM", "09:00 AM"⟩] []
    ⟨"B", "2026-02-01", "2026-02-02", "", "bad"⟩
    ⟨"B", "2026-02-01", "2026-02-02", "07:00 AM", "10:00 AM"⟩ 0 (by decide)
  exact ⟨h.2.2.1.trans (by decide), h.2.2.2.2⟩

/-- Claim C8: the raw converter assigns identifiers `1..N` — each output
identifier is its entry's zero-based input position plus one — in the
original input order, and output length equals input length. -/
theorem raw_converter_ids (items : List RawItem) (i : Nat) :
    (processRaw items).map EkadashiEntry.id = List.range' 1 items.length ∧
    (processRaw items).length = items.length ∧
    ((processRaw items)[i]?).map EkadashiEntry.id = (items[i]?).map (fun _ => i + 1) := by
  refine ⟨?_, by simp [processRaw, processRawAux_length], ?_⟩
  · simpa using processRawAux_map_id 0 items
  · simp only [processRaw, processRawAux_getElem, Nat.zero_add]
    cases items[i]? <;> rfl

/-! ## `tool/fix_ekadashi_data.py` : the dataset corrector

The corrector works on arbitrary JSON documents loaded by `json.load`, so
the model uses an inductive JSON value type.  Python statements that can
raise (`.get` on a non-dict, `x[k]` on a missing key or non-dict,
`str.startswith` on a non-string, `x in dict` on an unhashable value,
item assignment on a non-dict) are modelled in `Except PyErr`. -/

/-- JSON values (Python objects after `json.load`). -/
inductive Json where
  | null
  | bool (b : Bool)
  | num (n : Int)
  | str (s : String)
  | arr (elems : List Json)
  | obj (entries : List (String × Json))
deriving Repr

/-- Python exceptions raised by the corrector's operations. -/
inductive PyErr where
  | attributeError
  | keyError
  | typeError
deriving DecidableEq, Repr

/-- First-match lookup in a dict's entry list (Python dict keys are unique,
so first-match agrees with dict lookup). -/
def lookupKvs : List (String × Json) → String → Option Json
  | [], _ => none
  | (k, v) :: rest, s => if k = s then some v else lookupKvs rest s

/-- Python dict assignment `d[k] = v` on the entry list: replaces the value
in place when the key is present, appends otherwise. -/
def setEntry : List (String × Json) → String → Json → List (String × Json)
  | [], k, v => [(k, v)]
  | (k', v') :: rest, k, v =>
    if k' = k then (k, v) :: rest else (k', v') :: setEntry rest k v

/-- Python `x.get(k, d)`: dict lookup with default; `AttributeError` when
`x` is not a dict. -/
def jGet (j : Json) (k : String) (d : Json) : Except PyErr Json :=
  match j with
  | .obj kvs =>
    match lookupKvs kvs k with
    | some v => .ok v
    | none => .ok d
  | _ => .error .attributeError

/-- Python subscription `x[k]` with a string key: `KeyError` when the key is
missing, `TypeError` when `x` is not a dict. -/
def jGetItem (j : Json) (k : String) : Except PyErr Json :=
  match j with
  | .obj kvs =>
    match lookupKvs kvs k with
    | some v => .ok v
    | none => .error .keyError
  | _ => .error .typeError

/-- Python item assignment `x[k] = v`: `TypeError` when `x` is not a dict. -/
def jSetItem (j : Json) (k : String) (v : Json) : Except PyErr Json :=
  match j with
  | .obj kvs => .ok (.obj (setEntry kvs k v))
  | _ => .error .typeError

/-- Python `x.startswith(p)`: `AttributeError` when `x` is not a string. -/
def jStartsWith (j : Json) (p : String) : Except PyErr Bool :=
  match j with
  | .str s => .ok (strStarts p s)
  | _ => .error .attributeError

/-- Python `for x in j`: lists iterate their elements, dicts iterate their
keys, strings iterate their characters; other values raise `TypeError`. -/
def iterElems : Json → Except PyErr (List Json)
  | .arr xs => .ok xs
  | .obj kvs => .ok (kvs.map (fun kv => Json.str kv.1))
  | .str s => .ok (s.data.map (fun c => Json.str (String.mk [c])))
  | _ => .error .typeError

/-- The literal `ist_corrections` table of `fix_ekadashi_data.py`. -/
def ist_corrections : List (String × Json) :=
  [("Mohini Ekadashi", .obj
      [("date", .str "2026-04-27"),
       ("fasting_start", .str "2026-04-27T05:36:00+05:30"),
       ("parana_start", .str "2026-04-28T05:35:00+05:30"),
       ("parana_end", .str "2026-04-28T09:47:00+05:30")]),
   ("Apara Ekadashi", .obj
      [("date", .str "2026-05-13"),
       ("fasting_start", .str "2026-05-13T05:26:00+05:30"),
       ("parana_start", .str "2026-05-14T05:25:00+05:30"),
       ("parana_end", .str "2026-05-14T09:39:00+05:30")]),
   ("Prabodhini Ekadashi", .obj
      [("date", .str "2026-10-22"),
       ("fasting_start", .str "2026-10-22T06:19:00+05:30"),
       ("parana_start", .str "2026-10-23T06:20:00+05:30"),
       ("parana_end", .str "2026-10-23T10:29:00+05:30")]),
   ("Utpanna Ekadashi", .obj
      [("date", .str "2026-11-05"),
       ("fasting_start", .str "2026-11-05T06:26:00+05:30"),
       ("parana_start", .str "2026-11-06T06:27:00+05:30"),
       ("parana_end", .str "2026-11-06T10:35:00+05:30")]),
   ("Saphala Ekadashi", .obj
      [("date", .str "2026-12-04"),
       ("fasting_start", .str "2026-12-04T06:44:00+05:30"),
       ("parana_start", .str "2026-12-05T06:45:00+05:30"),
       ("parana_end", .str "2026-12-05T10:49:00+05:30")]),
   ("Pausha Putrada Ekadashi", .obj
      [("date", .str "2026-12-20"),
       ("fasting_start", .str "2026-12-20T06:54:00+05:30"),
       ("parana_start", .str "2026-12-21T06:55:00+05:30"),
       ("parana_end", .str "2026-12-21T10:57:00+05:30")])]

/-- The literal replacement value for `data['date_range']`. -/
def dateRangeObj : Json :=
  .obj [("start", .str "2026-01-01"), ("end", .str "2026-12-31")]

/-- The body of the corrector's `for ekadashi in data['ekadashis']` loop for
one entry, with correction table `tbl`: the `.get`-with-default chain to the
IST date string, the `startswith('2026')` test, and — inside the kept
branch — the `in`-table test on the extracted name and the wholesale IST
replacement.  Returns `ok none` when the entry is dropped, `ok (some e2)`
when it is appended (possibly corrected), and an error when Python would
raise.  The name chain `.get('name', {}).get('en', '')` is evaluated in
both branches of the `startswith` test (the removed branch evaluates it in
its log line), always after the `startswith` call, so its binds may be
hoisted above the branch as done here.  The membership test `name in tbl`
is inlined: for a string name it is the table lookup, for an unhashable
name (list/dict) it raises `TypeError`, and other hashable values are
never keys of the (string-keyed) table. -/
def processEkadashi (tbl : List (String × Json)) (e : Json) : Except PyErr (Option Json) :=
  (jGet e "timing" (.obj [])).bind fun timing =>
  (jGet timing "IST" (.obj [])).bind fun ist =>
  (jGet ist "date" (.str "")).bind fun dateJ =>
  (jStartsWith dateJ "2026").bind fun is2026 =>
  (jGet e "name" (.obj [])).bind fun nameJ =>
  (jGet nameJ "en" (.str "")).bind fun en =>
  if is2026 then
    match en with
    | .str s =>
      match lookupKvs tbl s with
      | some c =>
        (jGetItem e "timing").bind fun t =>
        (jSetItem t "IST" c).bind fun t2 =>
        (jSetItem e "timing" t2).map some
      | none => .ok (some e)
    | .arr _ => .error .typeError
    | .obj _ => .error .typeError
    | _ => .ok (some e)
  else .ok none

/-- The corrector's filter/correction loop over the entry list, building
`filtered_ekadashis` in order. -/
def filterEkadashis (tbl : List (String × Json)) : List Json → Except PyErr (List Json)
  | [] => .ok []
  | e :: rest =>
    (processEkadashi tbl e).bind fun r =>
      match r with
      | none => filterEkadashis tbl rest
      | some e2 => (filterEkadashis tbl rest).map (fun tail => e2 :: tail)

/-- The renumbering loop `for i, ekadashi in enumerate(data['ekadashis'], 1):
ekadashi['id'] = i`, starting at `k`. -/
def renumber (k : Nat) : List Json → Except PyErr (List Json)
  | [] => .ok []
  | e :: rest =>
    (jSetItem e "id" (.num k)).bind fun e2 =>
      (renumber (k + 1) rest).map (fun tail => e2 :: tail)

/-- The corrector's metadata rewrite: `data['date_range'] = {...}` followed
by `data['timezones']['IST']['cities'] = ['India']` (the in-place nested
mutation rebuilt functionally). -/
def fixMeta (d : Json) : Except PyErr Json :=
  (jSetItem d "date_range" dateRangeObj).bind fun d1 =>
  (jGetItem d1 "timezones").bind fun tz =>
  (jGetItem tz "IST").bind fun ist =>
  (jSetItem ist "cities" (.arr [.str "India"])).bind fun ist2 =>
  (jSetItem tz "IST" ist2).bind fun tz2 =>
  jSetItem d1 "timezones" tz2

/-- The whole corrector on a loaded document `d` with correction table
`tbl`: metadata rewrite, filter/correction loop, renumbering, and the final
`data['ekadashis']` assignment.  (In the source the filtered list is
assigned first and the renumbering then mutates its entries in place; the
observable final document carries the renumbered entries, as here.) -/
def fixData (tbl : List (String × Json)) (d : Json) : Except PyErr Json :=
  (fixMeta d).bind fun d1 =>
  (jGetItem d1 "ekadashis").bind fun eksJ =>
  (iterElems eksJ).bind fun es =>
  (filterEkadashis tbl es).bind fun fs =>
  (renumber 1 fs).bind fun rs =>
  jSetItem d1 "ekadashis" (.arr rs)

/-! ## Pure specification-side functions

These follow the specification's wording ("keep only Timed Events whose
specified-timezone timing date string's leading 4 characters equal the
target year", "replace that event's timing sub-record for that one
timezone label wholesale", "reassign identifiers 1..N sequentially") and
are used to state the refinement theorems; on documents where the code
model succeeds they coincide with it. -/

/-- Pure `x.get(k, d)`: lookup with default, the default also standing in
for non-dict values (total version used by the specification functions). -/
def pureGetD (j : Json) (k : String) (d : Json) : Json :=
  match j with
  | .obj kvs => (lookupKvs kvs k).getD d
  | _ => d

/-- Pure key lookup: `none` for a missing key or a non-dict. -/
def pureGetKey (j : Json) (k : String) : Option Json :=
  match j with
  | .obj kvs => lookupKvs kvs k
  | _ => none

/-- The entry's IST timing date string per the get-with-default chain
(`""` when any level is missing or has the wrong shape). -/
def specDate (e : Json) : Json :=
  pureGetD (pureGetD (pureGetD e "timing" (.obj [])) "IST" (.obj [])) "date" (.str "")

/-- Specification filter: keep exactly the entries whose IST timing date
string starts with `"2026"`. -/
def specKeep (e : Json) : Bool :=
  match specDate e with
  | .str ds => strStarts "2026" ds
  | _ => false

/-- The entry's English display name per the get-with-default chain. -/
def specName (e : Json) : Json :=
  pureGetD (pureGetD e "name" (.obj [])) "en" (.str "")

/-- Wholesale replacement of the entry's IST timing sub-record with `c`
(no other key of the timing block or of the entry is touched). -/
def setTimingIst (e : Json) (c : Json) : Json :=
  match e with
  | .obj kvs =>
    match lookupKvs kvs "timing" with
    | some (.obj tk) => .obj (setEntry kvs "timing" (.obj (setEntry tk "IST" c)))
    | _ => e
  | _ => e

/-- Specification correction: when the entry's English name is a key of the
table, replace the IST timing sub-record with the literal table record. -/
def specCorrect (tbl : List (String × Json)) (e : Json) : Json :=
  match specName e with
  | .str s =>
    match lookupKvs tbl s with
    | some c => setTimingIst e c
    | none => e
  | _ => e

/-- Specification renumbering: identifiers `k, k+1, ...` assigned in list
order (entries are dict-shaped wherever the code model succeeds). -/
def specRenumber (k : Nat) : List Json → List Json
  | [] => []
  | e :: rest =>
    (match e with
     | .obj kvs => Json.obj (setEntry kvs "id" (.num k))
     | x => x) :: specRenumber (k + 1) rest

/-- The `.get('name', {}).get('en', '')` chain evaluates without raising:
the value under `'name'` (or the default empty dict) is a dict. -/
def nameGetOk (e : Json) : Bool :=
  match pureGetD e "name" (.obj []) with
  | .obj _ => true
  | _ => false

/-- Name-chain safety: the `.get('name', {}).get('en', '')` chain evaluates
without raising and yields a hashable value (so the `in`-table test cannot
raise either). -/
def nameSafe (e : Json) : Bool :=
  match pureGetD e "name" (.obj []) with
  | .obj nk =>
    match (lookupKvs nk "en").getD (.str "") with
    | .arr _ => false
    | .obj _ => false
    | _ => true
  | _ => false

/-- A table record is well-formed for re-filtering: a dict whose `date`
value is a string starting with `"2026"`.  Every record of the literal
`ist_corrections` table satisfies this. -/
def corrOk (c : Json) : Bool :=
  match c with
  | .obj ck =>
    match lookupKvs ck "date" with
    | some (.str ds) => strStarts "2026" ds
    | _ => false
  | _ => false

/-! ## Basic lemmas: `Except`, association lists, the `j`-operations -/

@[simp] theorem ok_bind {α β : Type} (a : α) (f : α → Except PyErr β) :
    (Except.ok a : Except PyErr α).bind f = f a := rfl

@[simp] theorem error_bind {α β : Type} (er : PyErr) (f : α → Except PyErr β) :
    (Except.error er : Except PyErr α).bind f = .error er := rfl

@[simp] theorem ok_map {α β : Type} (a : α) (f : α → β) :
    (Except.ok a : Except PyErr α).map f = .ok (f a) := rfl

@[simp] theorem error_map {α β : Type} (er : PyErr) (f : α → β) :
    (Except.error er : Except PyErr α).map f = .error er := rfl

theorem bind_ok_inv {α β : Type} {ma : Except PyErr α} {f : α → Except PyErr β}
    {r : β} (h : ma.bind f = .ok r) : ∃ a, ma = .ok a ∧ f a = .ok r := by
  cases ma with
  | ok a => exact ⟨a, rfl, h⟩
  | error er => simp at h

theorem map_ok_inv {α β : Type} {ma : Except PyErr α} {f : α → β} {r : β}
    (h : ma.map f = .ok r) : ∃ a, ma = .ok a ∧ r = f a := by
  cases ma with
  | ok a => exact ⟨a, rfl, by cases h; rfl⟩
  | error er => simp at h

theorem lookupKvs_setEntry_self (kvs : List (String × Json)) (k : String) (v : Json) :
    lookupKvs (setEntry kvs k v) k = some v := by
  induction kvs with
  | nil => simp [setEntry, lookupKvs]
  | cons p rest ih =>
    by_cases hk : p.1 = k <;> simp [setEntry, lookupKvs, hk, ih]

theorem lookupKvs_setEntry_ne (kvs : List (String × Json)) (k k2 : String) (v : Json)
    (h : k ≠ k2) : lookupKvs (setEntry kvs k v) k2 = lookupKvs kvs k2 := by
  induction kvs with
  | nil => simp [setEntry, lookupKvs, h]
  | cons p rest ih =>
    by_cases hk : p.1 = k
    · simp [setEntry, hk, lookupKvs, h]
    · simp [setEntry, hk, lookupKvs, ih]

theorem setEntry_of_lookup (kvs : List (String × Json)) (k : String) (v : Json)
    (h : lookupKvs kvs k = some v) : setEntry kvs k v = kvs := by
  induction kvs with
  | nil => simp [lookupKvs] at h
  | cons p rest ih =>
    by_cases hk : p.1 = k
    · rcases p with ⟨k1, v1⟩
      simp only [lookupKvs] at h
      rw [if_pos hk] at h
      cases h
      simp_all [setEntry]
    · rcases p with ⟨k1, v1⟩
      simp only [lookupKvs] at h
      rw [if_neg hk] at h
      simp [setEntry, hk, ih h]

theorem lookupKvs_mem {l : List (String × Json)} {s : String} {c : Json}
    (h : lookupKvs l s = some c) : (s, c) ∈ l := by
  induction l with
  | nil => simp [lookupKvs] at h
  | cons p rest ih =>
    rcases p with ⟨k1, v1⟩
    simp only [lookupKvs] at h
    by_cases hk : k1 = s
    · rw [if_pos hk] at h
      cases h
      simp [hk]
    · rw [if_neg hk] at h
      exact List.mem_cons_of_mem _ (ih h)

@[simp] theorem pureGetD_obj (kvs : List (String × Json)) (k : String) (d : Json) :
    pureGetD (.obj kvs) k d = (lookupKvs kvs k).getD d := rfl

@[simp] theorem jGet_obj (kvs : List (String × Json)) (k : String) (d : Json) :
    jGet (.obj kvs) k d = .ok ((lookupKvs kvs k).getD d) := by
  unfold jGet
  cases hl : lookupKvs kvs k <;> simp [hl]

theorem jGet_ok_inv {j : Json} {k : String} {d v : Json}
    (h : jGet j k d = .ok v) : ∃ kvs, j = .obj kvs ∧ v = (lookupKvs kvs k).getD d := by
  cases j <;> simp [jGet] at h
  case obj kvs =>
    refine ⟨kvs, rfl, ?_⟩
    rcases hl : lookupKvs kvs k with _ | w <;> rw [hl] at h <;> cases h <;> rfl

@[simp] theorem jSetItem_obj (kvs : List (String × Json)) (k : String) (v : Json) :
    jSetItem (.obj kvs) k v = .ok (.obj (setEntry kvs k v)) := rfl

theorem jSetItem_ok_inv {j : Json} {k : String} {v j2 : Json}
    (h : jSetItem j k v = .ok j2) : ∃ kvs, j = .obj kvs ∧ j2 = .obj (setEntry kvs k v) := by
  cases j <;> simp [jSetItem] at h
  case obj kvs => exact ⟨kvs, rfl, h.symm⟩

theorem jGetItem_ok_inv {j : Json} {k : String} {v : Json}
    (h : jGetItem j k = .ok v) : ∃ kvs, j = .obj kvs ∧ lookupKvs kvs k = some v := by
  cases j <;> simp [jGetItem] at h
  case obj kvs =>
    refine ⟨kvs, rfl, ?_⟩
    rcases hl : lookupKvs kvs k with _ | w <;> rw [hl] at h
    · cases h
    · cases h; rfl

theorem jGetItem_of_lookup {kvs : List (String × Json)} {k : String} {v : Json}
    (h : lookupKvs kvs k = some v) : jGetItem (.obj kvs) k = .ok v := by
  simp [jGetItem, h]

theorem jStartsWith_ok_inv {j : Json} {p : String} {b : Bool}
    (h : jStartsWith j p = .ok b) : ∃ s, j = .str s ∧ b = strStarts p s := by
  cases j <;> simp [jStartsWith] at h
  case str s => exact ⟨s, rfl, h.symm⟩

/-! ## Characterization of the per-entry loop body -/

theorem specKeep_shape (kvs : List (String × Json)) (h : specKeep (.obj kvs) = true) :
    ∃ tk ik ds, lookupKvs kvs "timing" = some (.obj tk) ∧
      lookupKvs tk "IST" = some (.obj ik) ∧
      lookupKvs ik "date" = some (.str ds) ∧ strStarts "2026" ds = true := by
  unfold specKeep specDate at h
  simp only [pureGetD_obj] at h
  rcases h1 : lookupKvs kvs "timing" with _ | t <;> rw [h1] at h
  · exact Bool.noConfusion h
  rcases t with _ | b | n | s | xs | tk
  · exact Bool.noConfusion h
  · exact Bool.noConfusion h
  · exact Bool.noConfusion h
  · exact Bool.noConfusion h
  · exact Bool.noConfusion h
  simp only [Option.getD_some, pureGetD_obj] at h
  rcases h2 : lookupKvs tk "IST" with _ | u <;> rw [h2] at h
  · exact Bool.noConfusion h
  rcases u with _ | b | n | s | xs | ik
  · exact Bool.noConfusion h
  · exact Bool.noConfusion h
  · exact Bool.noConfusion h
  · exact Bool.noConfusion h
  · exact Bool.noConfusion h
  simp only [Option.getD_some, pureGetD_obj] at h
  rcases h3 : lookupKvs ik "date" with _ | w <;> rw [h3] at h
  · exact Bool.noConfusion h
  rcases w with _ | b | n | s | xs | zk
  · exact Bool.noConfusion h
  · exact Bool.noConfusion h
  · exact Bool.noConfusion h
  · exact ⟨tk, ik, s, rfl, h2, h3, h⟩
  · exact Bool.noConfusion h
  · exact Bool.noConfusion h

theorem nameSafe_inv (kvs : List (String × Json)) (h : nameSafe (.obj kvs) = true) :
    ∃ nk, (lookupKvs kvs "name").getD (.obj []) = .obj nk ∧
      (∀ xs, (lookupKvs nk "en").getD (.str "") ≠ .arr xs) ∧
      (∀ ks, (lookupKvs nk "en").getD (.str "") ≠ .obj ks) := by
  unfold nameSafe at h
  simp only [pureGetD_obj] at h
  rcases hn : (lookupKvs kvs "name").getD (.obj []) with _ | b | n | s | xs | nk <;>
    rw [hn] at h
  · exact Bool.noConfusion h
  · exact Bool.noConfusion h
  · exact Bool.noConfusion h
  · exact Bool.noConfusion h
  · exact Bool.noConfusion h
  have h2 : (match (lookupKvs nk "en").getD (.str "") with
      | Json.arr _ => false
      | Json.obj _ => false
      | _ => true) = true := h
  refine ⟨nk, rfl, ?_, ?_⟩ <;>
    · intro v hv
      rw [hv] at h2
      exact Bool.noConfusion h2

/-- The name-chain facts imply `nameSafe`. -/
theorem nameSafe_of (kvs nk : List (String × Json)) (en : Json)
    (hname : (lookupKvs kvs "name").getD (.obj []) = .obj nk)
    (hen : (lookupKvs nk "en").getD (.str "") = en)
    (hok : ∀ xs, en ≠ .arr xs) (hok2 : ∀ ks, en ≠ .obj ks) :
    nameSafe (.obj kvs) = true := by
  unfold nameSafe
  rw [pureGetD_obj, hname]
  show (match (lookupKvs nk "en").getD (.str "") with
      | Json.arr _ => false
      | Json.obj _ => false
      | _ => true) = true
  rw [hen]
  rcases en with _ | b | n | s | xs | ks
  · rfl
  · rfl
  · rfl
  · rfl
  · exact absurd rfl (hok xs)
  · exact absurd rfl (hok2 ks)

/-- Master inversion for the loop body: on success the entry is a dict, a
dropped entry fails the year test (with an evaluable name chain), and a
kept entry passes it, has a safe name chain, and comes out exactly as
`specCorrect` describes. -/
theorem processEkadashi_ok_inv {tbl : List (String × Json)} {e : Json} {r : Option Json}
    (h : processEkadashi tbl e = .ok r) :
    ∃ kvs, e = .obj kvs ∧
      ((r = none ∧ specKeep e = false ∧ nameGetOk e = true) ∨
       (∃ e2, r = some e2 ∧ specKeep e = true ∧ nameSafe e = true ∧
          e2 = specCorrect tbl e)) := by
  unfold processEkadashi at h
  obtain ⟨timing, h1, h⟩ := bind_ok_inv h
  obtain ⟨ist, h2, h⟩ := bind_ok_inv h
  obtain ⟨dateJ, h3, h⟩ := bind_ok_inv h
  obtain ⟨is2026, h4, h⟩ := bind_ok_inv h
  obtain ⟨nameJ, h5, h⟩ := bind_ok_inv h
  obtain ⟨en, h6, h⟩ := bind_ok_inv h
  obtain ⟨kvs, hekvs, htiming⟩ := jGet_ok_inv h1
  subst hekvs
  obtain ⟨tk, htobj, hist⟩ := jGet_ok_inv h2
  obtain ⟨ik, hiobj, hdate⟩ := jGet_ok_inv h3
  obtain ⟨ds, hdstr, hb⟩ := jStartsWith_ok_inv h4
  obtain ⟨kvs2, he2, hname⟩ := jGet_ok_inv h5
  injection he2 with hkk
  subst hkk
  obtain ⟨nk, hnobj, hen⟩ := jGet_ok_inv h6
  have hnamev : (lookupKvs kvs "name").getD (.obj []) = .obj nk := hname.symm.trans hnobj
  have henv : (lookupKvs nk "en").getD (.str "") = en := hen.symm
  have hsd : specDate (.obj kvs) = dateJ := by
    unfold specDate
    rw [pureGetD_obj, ← htiming, htobj, pureGetD_obj, ← hist, hiobj, pureGetD_obj, ← hdate]
  have hsk : specKeep (.obj kvs) = is2026 := by
    unfold specKeep
    rw [hsd, hdstr, hb]
  have hsn : specName (.obj kvs) = en := by
    unfold specName
    rw [pureGetD_obj, hnamev, pureGetD_obj, henv]
  have hngo : nameGetOk (.obj kvs) = true := by
    unfold nameGetOk
    rw [pureGetD_obj, hnamev]
  cases is2026 with
  | false =>
    rw [if_neg (by simp)] at h
    cases h
    exact ⟨kvs, rfl, Or.inl ⟨rfl, hsk, hngo⟩⟩
  | true =>
    rw [if_pos rfl] at h
    rcases hcen : en with _ | b | n | s | xs | ks <;> rw [hcen] at h
    · cases h
      exact ⟨kvs, rfl, Or.inr ⟨_, rfl, hsk,
        nameSafe_of kvs nk en hnamev henv (by simp [hcen]) (by simp [hcen]),
        by unfold specCorrect; rw [hsn, hcen]⟩⟩
    · cases h
      exact ⟨kvs, rfl, Or.inr ⟨_, rfl, hsk,
        nameSafe_of kvs nk en hnamev henv (by simp [hcen]) (by simp [hcen]),
        by unfold specCorrect; rw [hsn, hcen]⟩⟩
    · cases h
      exact ⟨kvs, rfl, Or.inr ⟨_, rfl, hsk,
        nameSafe_of kvs nk en hnamev henv (by simp [hcen]) (by simp [hcen]),
        by unfold specCorrect; rw [hsn, hcen]⟩⟩
    · have h' : (match lookupKvs tbl s with
          | some c =>
            (jGetItem (Json.obj kvs) "timing").bind fun t =>
              (jSetItem t "IST" c).bind fun t2 =>
                Except.map some (jSetItem (Json.obj kvs) "timing" t2)
          | none => Except.ok (some (Json.obj kvs))) = Except.ok r := h
      rcases hc : lookupKvs tbl s with _ | c <;> rw [hc] at h'
      · cases h'
        refine ⟨kvs, rfl, Or.inr ⟨_, rfl, hsk,
          nameSafe_of kvs nk en hnamev henv (by simp [hcen]) (by simp [hcen]), ?_⟩⟩
        unfold specCorrect
        rw [hsn, hcen]
        show Json.obj kvs = (match lookupKvs tbl s with
          | some c => setTimingIst (Json.obj kvs) c
          | none => Json.obj kvs)
        rw [hc]
      · obtain ⟨t, h7, h'⟩ := bind_ok_inv h'
        obtain ⟨t2, h8, h'⟩ := bind_ok_inv h'
        obtain ⟨e2, h9, hre⟩ := map_ok_inv h'
        obtain ⟨kvs2, he2, hlook⟩ := jGetItem_ok_inv h7
        injection he2 with hkk2
        subst hkk2
        obtain ⟨tk2, ht2, ht2v⟩ := jSetItem_ok_inv h8
        obtain ⟨kvs3, he3, he3v⟩ := jSetItem_ok_inv h9
        injection he3 with hkk3
        subst hkk3
        have httk : t = .obj tk := by
          rw [hlook, Option.getD_some] at htiming
          rw [← htiming, htobj]
        have htk2 : tk2 = tk := by
          rw [httk] at ht2
          injection ht2 with h''
          exact h''.symm
        refine ⟨kvs, rfl, Or.inr ⟨e2, by rw [hre], hsk,
          nameSafe_of kvs nk en hnamev henv (by simp [hcen]) (by simp [hcen]), ?_⟩⟩
        unfold specCorrect
        rw [hsn, hcen]
        show e2 = (match lookupKvs tbl s with
          | some c => setTimingIst (Json.obj kvs) c
          | none => Json.obj kvs)
        rw [hc]
        unfold setTimingIst
        rw [httk] at hlook
        show e2 = (match lookupKvs kvs "timing" with
          | some (.obj tk) => Json.obj (setEntry kvs "timing" (.obj (setEntry tk "IST" c)))
          | _ => Json.obj kvs)
        rw [hlook]
        rw [he3v, ht2v, htk2]
    · exact Except.noConfusion h
    · exact Except.noConfusion h

/-- Converse of `specKeep_shape`. -/
theorem specKeep_of_shape (kvs tk ik : List (String × Json)) (ds : String)
    (h1 : lookupKvs kvs "timing" = some (.obj tk))
    (h2 : lookupKvs tk "IST" = some (.obj ik))
    (h3 : lookupKvs ik "date" = some (.str ds))
    (h4 : strStarts "2026" ds = true) : specKeep (.obj kvs) = true := by
  unfold specKeep specDate
  rw [pureGetD_obj, h1, Option.getD_some, pureGetD_obj, h2, Option.getD_some,
    pureGetD_obj, h3, Option.getD_some]
  exact h4

/-- With an empty correction table nothing is corrected. -/
theorem specCorrect_empty (e : Json) : specCorrect [] e = e := by
  unfold specCorrect
  rcases hsn : specName e with _ | b | n | s | xs | ks <;> rfl

/-- Forward computation of the loop body on a kept entry. -/
theorem processEkadashi_kept (tbl kvs : List (String × Json))
    (hk : specKeep (.obj kvs) = true) (hn : nameSafe (.obj kvs) = true) :
    processEkadashi tbl (.obj kvs) = .ok (some (specCorrect tbl (.obj kvs))) := by
  obtain ⟨tk, ik, ds, h1, h2, h3, h4⟩ := specKeep_shape kvs hk
  obtain ⟨nk, hnk, harr, hobj⟩ := nameSafe_inv kvs hn
  have hsn : specName (.obj kvs) = (lookupKvs nk "en").getD (.str "") := by
    unfold specName
    rw [pureGetD_obj, hnk, pureGetD_obj]
  unfold processEkadashi
  rw [jGet_obj, h1]
  simp only [Option.getD_some, ok_bind]
  rw [jGet_obj, h2]
  simp only [Option.getD_some, ok_bind]
  rw [jGet_obj, h3]
  simp only [Option.getD_some, ok_bind]
  have hsw : jStartsWith (.str ds) "2026" = .ok true := by
    simp [jStartsWith, h4]
  rw [hsw]
  simp only [ok_bind]
  rw [jGet_obj, hnk]
  simp only [ok_bind]
  rw [jGet_obj]
  simp only [ok_bind, if_pos]
  unfold specCorrect
  rw [hsn]
  rcases hen : (lookupKvs nk "en").getD (.str "") with _ | b | n | s | xs | ks
  · rfl
  · rfl
  · rfl
  · show (match lookupKvs tbl s with
        | some c =>
          (jGetItem (Json.obj kvs) "timing").bind fun t =>
            (jSetItem t "IST" c).bind fun t2 =>
              Except.map some (jSetItem (Json.obj kvs) "timing" t2)
        | none => Except.ok (some (Json.obj kvs))) =
      Except.ok (some (match lookupKvs tbl s with
        | some c => setTimingIst (Json.obj kvs) c
        | none => Json.obj kvs))
    rcases hc : lookupKvs tbl s with _ | c
    · rfl
    · rw [jGetItem_of_lookup h1]
      simp only [ok_bind, jSetItem_obj, ok_map]
      unfold setTimingIst
      show Except.ok (some (Json.obj (setEntry kvs "timing" (.obj (setEntry tk "IST" c))))) =
        Except.ok (some (match lookupKvs kvs "timing" with
          | some (.obj tk') => Json.obj (setEntry kvs "timing" (.obj (setEntry tk' "IST" c)))
          | _ => Json.obj kvs))
      rw [h1]
  · exact absurd hen (harr xs)
  · exact absurd hen (hobj ks)

/-! ## Invariants preserved by correction and renumbering -/

/-- A dict entry that passes the year filter and has a safe name chain. -/
def goodEntry (e : Json) : Prop :=
  ∃ kvs, e = .obj kvs ∧ specKeep e = true ∧ nameSafe e = true

theorem nameSafe_setEntry_ne (kvs : List (String × Json)) (k : String) (v : Json)
    (hk : k ≠ "name") (hn : nameSafe (.obj kvs) = true) :
    nameSafe (.obj (setEntry kvs k v)) = true := by
  obtain ⟨nk, hnk, harr, hobj⟩ := nameSafe_inv kvs hn
  refine nameSafe_of _ nk _ ?_ rfl harr hobj
  rw [lookupKvs_setEntry_ne kvs k "name" v hk, hnk]

/-- Updating the `id` key preserves `goodEntry`. -/
theorem goodEntry_setEntry_id (kvs : List (String × Json)) (v : Json)
    (hg : goodEntry (.obj kvs)) : goodEntry (.obj (setEntry kvs "id" v)) := by
  obtain ⟨kvs', he, hk, hn⟩ := hg
  injection he with he'
  subst he'
  obtain ⟨tk, ik, ds, h1, h2, h3, h4⟩ := specKeep_shape kvs hk
  refine ⟨_, rfl, ?_, ?_⟩
  · refine specKeep_of_shape _ tk ik ds ?_ h2 h3 h4
    rw [lookupKvs_setEntry_ne kvs "id" "timing" v (by decide), h1]
  · exact nameSafe_setEntry_ne kvs "id" v (by decide) hn

/-- When every table record is well-formed (`corrOk`), correcting a good
entry yields a good entry. -/
theorem goodEntry_specCorrect (tbl : List (String × Json))
    (htbl : ∀ p ∈ tbl, corrOk p.2 = true) (e : Json) (hg : goodEntry e) :
    goodEntry (specCorrect tbl e) := by
  obtain ⟨kvs, he, hk, hn⟩ := hg
  subst he
  unfold specCorrect
  rcases hsn : specName (.obj kvs) with _ | b | n | s | xs | ks
  · exact ⟨kvs, rfl, hk, hn⟩
  · exact ⟨kvs, rfl, hk, hn⟩
  · exact ⟨kvs, rfl, hk, hn⟩
  · show goodEntry (match lookupKvs tbl s with
      | some c => setTimingIst (Json.obj kvs) c
      | none => Json.obj kvs)
    rcases hc : lookupKvs tbl s with _ | c
    · exact ⟨kvs, rfl, hk, hn⟩
    · have hcok : corrOk c = true := htbl (s, c) (lookupKvs_mem hc)
      obtain ⟨tk, ik, ds, h1, h2, h3, h4⟩ := specKeep_shape kvs hk
      unfold setTimingIst
      show goodEntry (match lookupKvs kvs "timing" with
        | some (.obj tk') => Json.obj (setEntry kvs "timing" (.obj (setEntry tk' "IST" c)))
        | _ => Json.obj kvs)
      rw [h1]
      rcases c with _ | b | n | s2 | xs | ck
      · exact Bool.noConfusion hcok
      · exact Bool.noConfusion hcok
      · exact Bool.noConfusion hcok
      · exact Bool.noConfusion hcok
      · exact Bool.noConfusion hcok
      have hdc : ∃ ds2, lookupKvs ck "date" = some (.str ds2) ∧ strStarts "2026" ds2 = true := by
        have hcok2 : (match lookupKvs ck "date" with
            | some (.str ds2) => strStarts "2026" ds2
            | _ => false) = true := hcok
        rcases hd : lookupKvs ck "date" with _ | w <;> rw [hd] at hcok2
        · exact Bool.noConfusion hcok2
        rcases w with _ | b | n | ds2 | xs | zk
        · exact Bool.noConfusion hcok2
        · exact Bool.noConfusion hcok2
        · exact Bool.noConfusion hcok2
        · exact ⟨ds2, rfl, hcok2⟩
        · exact Bool.noConfusion hcok2
        · exact Bool.noConfusion hcok2
      obtain ⟨ds2, hd, hds2⟩ := hdc
      refine ⟨_, rfl, ?_, ?_⟩
      · refine specKeep_of_shape _ (setEntry tk "IST" (.obj ck)) ck ds2 ?_ ?_ hd hds2
        · rw [lookupKvs_setEntry_self]
        · rw [lookupKvs_setEntry_self]
      · exact nameSafe_setEntry_ne kvs "timing" _ (by decide) hn
  · exact ⟨kvs, rfl, hk, hn⟩
  · exact ⟨kvs, rfl, hk, hn⟩

/-- The literal correction table is well-formed. -/
theorem ist_corrections_corrOk : ∀ p ∈ ist_corrections, corrOk p.2 = true := by decide

/-! ## The filter loop and the renumbering loop -/

/-- Refinement of the filter/correction loop: on success, the output is
exactly the year-filtered input with corrections applied, in order. -/
theorem filterEkadashis_ok_eq {tbl : List (String × Json)} :
    ∀ {es fs : List Json}, filterEkadashis tbl es = .ok fs →
      fs = (es.filter specKeep).map (specCorrect tbl) := by
  intro es
  induction es with
  | nil => intro fs h; cases h; rfl
  | cons e rest ih =>
    intro fs h
    unfold filterEkadashis at h
    obtain ⟨r, hr, h⟩ := bind_ok_inv h
    obtain ⟨kvs, he, hcase⟩ := processEkadashi_ok_inv hr
    subst he
    rcases hcase with ⟨hrn, hkf, _⟩ | ⟨e2, hrs, hkt, _, he2⟩
    · subst hrn
      rw [List.filter_cons, if_neg (by simp [hkf])]
      exact ih h
    · subst hrs
      obtain ⟨tail, htail, hfs⟩ := map_ok_inv h
      rw [List.filter_cons, if_pos (by simp [hkt])]
      simp only [List.map_cons]
      rw [hfs, he2, ih htail]

/-- Every entry produced by a successful filter run is good (given a
well-formed table). -/
theorem filterEkadashis_good {tbl : List (String × Json)}
    (htbl : ∀ p ∈ tbl, corrOk p.2 = true) :
    ∀ {es fs : List Json}, filterEkadashis tbl es = .ok fs →
      ∀ e2 ∈ fs, goodEntry e2 := by
  intro es
  induction es with
  | nil => intro fs h; cases h; intro e2 h2; cases h2
  | cons e rest ih =>
    intro fs h
    unfold filterEkadashis at h
    obtain ⟨r, hr, h⟩ := bind_ok_inv h
    obtain ⟨kvs, he, hcase⟩ := processEkadashi_ok_inv hr
    subst he
    rcases hcase with ⟨hrn, _, _⟩ | ⟨e2, hrs, hkt, hns, he2⟩
    · subst hrn
      exact ih h
    · subst hrs
      obtain ⟨tail, htail, hfs⟩ := map_ok_inv h
      subst hfs
      intro e3 h3
      rcases List.mem_cons.1 h3 with h3 | h3
      · subst h3
        rw [he2]
        exact goodEntry_specCorrect tbl htbl _ ⟨kvs, rfl, hkt, hns⟩
      · exact ih htail e3 h3

/-- On a list of good entries the empty-table filter is the identity. -/
theorem filterEkadashis_id {l : List Json} (hg : ∀ e ∈ l, goodEntry e) :
    filterEkadashis [] l = .ok l := by
  induction l with
  | nil => rfl
  | cons e rest ih =>
    obtain ⟨kvs, he, hk, hn⟩ := hg e (List.mem_cons_self e rest)
    subst he
    unfold filterEkadashis
    rw [processEkadashi_kept [] kvs hk hn, specCorrect_empty]
    simp only [ok_bind]
    rw [ih (fun e2 h2 => hg e2 (List.mem_cons_of_mem _ h2))]
    rfl

/-- Refinement of the renumbering loop. -/
theorem renumber_ok_eq : ∀ {k : Nat} {fs rs : List Json}, renumber k fs = .ok rs →
    rs = specRenumber k fs := by
  intro k fs
  induction fs generalizing k with
  | nil => intro rs h; cases h; rfl
  | cons e rest ih =>
    intro rs h
    unfold renumber at h
    obtain ⟨e2, he2, h⟩ := bind_ok_inv h
    obtain ⟨tail, htail, hrs⟩ := map_ok_inv h
    obtain ⟨kvs, he, he2v⟩ := jSetItem_ok_inv he2
    subst he
    subst hrs
    rw [he2v, ih htail]
    rfl

/-- Good entries stay good through renumbering. -/
theorem renumber_good : ∀ {k : Nat} {fs rs : List Json}, renumber k fs = .ok rs →
    (∀ e ∈ fs, goodEntry e) → ∀ e2 ∈ rs, goodEntry e2 := by
  intro k fs
  induction fs generalizing k with
  | nil => intro rs h _ e2 h2; cases h; cases h2
  | cons e rest ih =>
    intro rs h hg
    unfold renumber at h
    obtain ⟨e2, he2, h⟩ := bind_ok_inv h
    obtain ⟨tail, htail, hrs⟩ := map_ok_inv h
    obtain ⟨kvs, he, he2v⟩ := jSetItem_ok_inv he2
    subst he
    subst hrs
    intro e3 h3
    rcases List.mem_cons.1 h3 with h3 | h3
    · subst h3
      rw [he2v]
      exact goodEntry_setEntry_id kvs _ (hg _ (List.mem_cons_self _ _))
    · exact ih htail (fun e4 h4 => hg e4 (List.mem_cons_of_mem _ h4)) e3 h3

/-- Renumbering is idempotent: re-running it on its own output changes
nothing. -/
theorem renumber_idem : ∀ {k : Nat} {fs rs : List Json}, renumber k fs = .ok rs →
    renumber k rs = .ok rs := by
  intro k fs
  induction fs generalizing k with
  | nil => intro rs h; cases h; rfl
  | cons e rest ih =>
    intro rs h
    unfold renumber at h
    obtain ⟨e2, he2, h⟩ := bind_ok_inv h
    obtain ⟨tail, htail, hrs⟩ := map_ok_inv h
    obtain ⟨kvs, he, he2v⟩ := jSetItem_ok_inv he2
    subst he
    subst hrs
    unfold renumber
    rw [he2v, jSetItem_obj,
      setEntry_of_lookup _ _ _ (lookupKvs_setEntry_self kvs "id" (.num k)),
      ok_bind, ih htail]
    rfl

/-! ## The metadata rewrite and the whole corrector -/

theorem fixMeta_ok_inv {d d1 : Json} (h : fixMeta d = .ok d1) :
    ∃ kvs tzk istk,
      d = .obj kvs ∧
      lookupKvs (setEntry kvs "date_range" dateRangeObj) "timezones" = some (.obj tzk) ∧
      lookupKvs tzk "IST" = some (.obj istk) ∧
      d1 = .obj (setEntry (setEntry kvs "date_range" dateRangeObj) "timezones"
        (.obj (setEntry tzk "IST" (.obj (setEntry istk "cities" (.arr [.str "India"])))))) := by
  unfold fixMeta at h
  obtain ⟨d1', hd1, h⟩ := bind_ok_inv h
  obtain ⟨tz, htz, h⟩ := bind_ok_inv h
  obtain ⟨ist, hist, h⟩ := bind_ok_inv h
  obtain ⟨ist2, hist2, h⟩ := bind_ok_inv h
  obtain ⟨tz2, htz2, h⟩ := bind_ok_inv h
  obtain ⟨kvs, he, hd1v⟩ := jSetItem_ok_inv hd1
  subst he
  subst hd1v
  obtain ⟨kvs2, he2, hlook⟩ := jGetItem_ok_inv htz
  injection he2 with hk2
  subst hk2
  obtain ⟨tzk, hetz, histlook⟩ := jGetItem_ok_inv hist
  subst hetz
  obtain ⟨istk, heist, hist2v⟩ := jSetItem_ok_inv hist2
  subst heist
  subst hist2v
  obtain ⟨tzk2, hetz2, htz2v⟩ := jSetItem_ok_inv htz2
  injection hetz2 with hk3
  subst hk3
  subst htz2v
  obtain ⟨kvs3, he3, hfin⟩ := jSetItem_ok_inv h
  injection he3 with hk4
  subst hk4
  exact ⟨kvs, tzk, istk, rfl, hlook, histlook, hfin⟩

/-- A document that already carries the rewritten metadata is a fixed point
of the metadata rewrite. -/
theorem fixMeta_fix {kvs tzk istk : List (String × Json)}
    (h1 : lookupKvs kvs "date_range" = some dateRangeObj)
    (h2 : lookupKvs kvs "timezones" = some (.obj tzk))
    (h3 : lookupKvs tzk "IST" = some (.obj istk))
    (h4 : lookupKvs istk "cities" = some (.arr [.str "India"])) :
    fixMeta (.obj kvs) = .ok (.obj kvs) := by
  unfold fixMeta
  rw [jSetItem_obj, setEntry_of_lookup _ _ _ h1]
  simp only [ok_bind]
  rw [jGetItem_of_lookup h2]
  simp only [ok_bind]
  rw [jGetItem_of_lookup h3]
  simp only [ok_bind]
  rw [jSetItem_obj, setEntry_of_lookup _ _ _ h4]
  simp only [ok_bind]
  rw [jSetItem_obj, setEntry_of_lookup _ _ _ h3]
  simp only [ok_bind]
  rw [jSetItem_obj, setEntry_of_lookup _ _ _ h2]

theorem fixData_ok_inv {tbl : List (String × Json)} {d d2 : Json}
    (h : fixData tbl d = .ok d2) :
    ∃ kvs1 eksJ es fs rs,
      fixMeta d = .ok (.obj kvs1) ∧
      lookupKvs kvs1 "ekadashis" = some eksJ ∧
      iterElems eksJ = .ok es ∧
      filterEkadashis tbl es = .ok fs ∧
      renumber 1 fs = .ok rs ∧
      d2 = .obj (setEntry kvs1 "ekadashis" (.arr rs)) := by
  unfold fixData at h
  obtain ⟨d1, h1, h⟩ := bind_ok_inv h
  obtain ⟨eksJ, h2, h⟩ := bind_ok_inv h
  obtain ⟨es, h3, h⟩ := bind_ok_inv h
  obtain ⟨fs, h4, h⟩ := bind_ok_inv h
  obtain ⟨rs, h5, h⟩ := bind_ok_inv h
  obtain ⟨kvs1, he1, hv⟩ := jSetItem_ok_inv h
  subst he1
  obtain ⟨kvs1', he1', hlook⟩ := jGetItem_ok_inv h2
  injection he1' with hk
  subst hk
  exact ⟨kvs1, eksJ, es, fs, rs, h1, hlook, h3, h4, h5, hv⟩

/-- Claim C7: feeding the corrector's own output back through the
date-range/city-list rewriting, filtering, and renumbering steps with an
empty correction table reproduces that output exactly (idempotence on its
own output). -/
theorem corrector_idempotent (d d2 : Json)
    (h : fixData ist_corrections d = .ok d2) :
    fixData [] d2 = .ok d2 := by
  obtain ⟨kvs1, eksJ, es, fs, rs, hmeta, hlook, hiter, hfilt, hren, hd2⟩ := fixData_ok_inv h
  obtain ⟨kvs, tzk, istk, hd, htzlook, histlook, hkvs1⟩ := fixMeta_ok_inv hmeta
  injection hkvs1 with hkvs1'
  subst hkvs1'
  subst hd2
  have hA : lookupKvs (setEntry (setEntry (setEntry kvs "date_range" dateRangeObj)
      "timezones" (.obj (setEntry tzk "IST" (.obj (setEntry istk "cities"
        (.arr [.str "India"])))))) "ekadashis" (.arr rs)) "date_range" =
      some dateRangeObj := by
    rw [lookupKvs_setEntry_ne _ "ekadashis" "date_range" _ (by decide),
      lookupKvs_setEntry_ne _ "timezones" "date_range" _ (by decide),
      lookupKvs_setEntry_self]
  have hB : lookupKvs (setEntry (setEntry (setEntry kvs "date_range" dateRangeObj)
      "timezones" (.obj (setEntry tzk "IST" (.obj (setEntry istk "cities"
        (.arr [.str "India"])))))) "ekadashis" (.arr rs)) "timezones" =
      some (.obj (setEntry tzk "IST" (.obj (setEntry istk "cities"
        (.arr [.str "India"]))))) := by
    rw [lookupKvs_setEntry_ne _ "ekadashis" "timezones" _ (by decide),
      lookupKvs_setEntry_self]
  have hC : lookupKvs (setEntry tzk "IST" (.obj (setEntry istk "cities"
      (.arr [.str "India"])))) "IST" =
      some (.obj (setEntry istk "cities" (.arr [.str "India"]))) :=
    lookupKvs_setEntry_self _ _ _
  have hD : lookupKvs (setEntry istk "cities" (.arr [.str "India"])) "cities" =
      some (.arr [.str "India"]) := lookupKvs_setEntry_self _ _ _
  have hE : lookupKvs (setEntry (setEntry (setEntry kvs "date_range" dateRangeObj)
      "timezones" (.obj (setEntry tzk "IST" (.obj (setEntry istk "cities"
        (.arr [.str "India"])))))) "ekadashis" (.arr rs)) "ekadashis" =
      some (.arr rs) := lookupKvs_setEntry_self _ _ _
  have hgfs := filterEkadashis_good ist_corrections_corrOk hfilt
  have hgrs := renumber_good hren hgfs
  unfold fixData
  rw [fixMeta_fix hA hB hC hD]
  simp only [ok_bind]
  rw [jGetItem_of_lookup hE]
  simp only [ok_bind]
  rw [show iterElems (.arr rs) = .ok rs from rfl]
  simp only [ok_bind]
  rw [filterEkadashis_id hgrs]
  simp only [ok_bind]
  rw [renumber_idem hren]
  simp only [ok_bind]
  rw [jSetItem_obj, setEntry_of_lookup _ _ _ hE]

theorem nameGetOk_inv (kvs : List (String × Json)) (h : nameGetOk (.obj kvs) = true) :
    ∃ nk, (lookupKvs kvs "name").getD (.obj []) = .obj nk := by
  unfold nameGetOk at h
  simp only [pureGetD_obj] at h
  rcases hn : (lookupKvs kvs "name").getD (.obj []) with _ | b | n | s | xs | nk <;>
    rw [hn] at h
  · exact Bool.noConfusion h
  · exact Bool.noConfusion h
  · exact Bool.noConfusion h
  · exact Bool.noConfusion h
  · exact Bool.noConfusion h
  · exact ⟨nk, rfl⟩

theorem specKeep_is_obj {e : Json} (h : specKeep e = true) : ∃ kvs, e = .obj kvs := by
  cases e
  case obj kvs => exact ⟨kvs, rfl⟩
  all_goals exact Bool.noConfusion h

theorem specName_setEntry_ne (kvs : List (String × Json)) (k : String) (v : Json)
    (hk : k ≠ "name") : specName (.obj (setEntry kvs k v)) = specName (.obj kvs) := by
  unfold specName
  rw [pureGetD_obj, pureGetD_obj, lookupKvs_setEntry_ne kvs k "name" v hk]

theorem specName_setTimingIst (e c : Json) : specName (setTimingIst e c) = specName e := by
  unfold setTimingIst
  rcases e with _ | b | n | s2 | xs | kvs
  · rfl
  · rfl
  · rfl
  · rfl
  · rfl
  show specName (match lookupKvs kvs "timing" with
      | some (.obj tk) => Json.obj (setEntry kvs "timing" (.obj (setEntry tk "IST" c)))
      | _ => Json.obj kvs) = specName (.obj kvs)
  rcases ht : lookupKvs kvs "timing" with _ | t
  · rfl
  rcases t with _ | b | n | s3 | xs | tk
  · rfl
  · rfl
  · rfl
  · rfl
  · rfl
  · exact specName_setEntry_ne kvs "timing" _ (by decide)

theorem specName_specCorrect (tbl : List (String × Json)) (e : Json) :
    specName (specCorrect tbl e) = specName e := by
  unfold specCorrect
  rcases hsn : specName e with _ | b | n | s | xs | ks
  · exact hsn
  · exact hsn
  · exact hsn
  · show specName (match lookupKvs tbl s with
      | some c => setTimingIst e c
      | none => e) = Json.str s
    rcases hc : lookupKvs tbl s with _ | c
    · exact hsn
    · exact (specName_setTimingIst e c).trans hsn
  · exact hsn
  · exact hsn

/-- Identifier sequence produced by the specification renumbering on
dict-shaped entries: exactly `k, k+1, ...` in order. -/
theorem specRenumber_ids (k : Nat) (l : List Json)
    (hobj : ∀ e ∈ l, ∃ kvs0, e = .obj kvs0) :
    (specRenumber k l).map (fun e2 => pureGetKey e2 "id") =
      (List.range' k l.length).map (fun n => some (Json.num (Int.ofNat n))) := by
  induction l generalizing k with
  | nil => rfl
  | cons e rest ih =>
    obtain ⟨kvs0, he⟩ := hobj e (List.mem_cons_self e rest)
    subst he
    simp only [specRenumber, List.map_cons, List.length_cons, List.range', List.cons.injEq]
    refine ⟨?_, ?_⟩
    · show lookupKvs (setEntry kvs0 "id" (.num (Int.ofNat k))) "id" =
        some (Json.num (Int.ofNat k))
      exact lookupKvs_setEntry_self kvs0 "id" _
    · exact ih (k + 1) (fun e2 h2 => hobj e2 (List.mem_cons_of_mem _ h2))

theorem mem_specRenumber {e2 : Json} :
    ∀ {k : Nat} {l : List Json}, e2 ∈ specRenumber k l →
      ∃ e1 ∈ l, ∃ n : Nat, e2 = (match e1 with
        | .obj kvs => Json.obj (setEntry kvs "id" (.num (Int.ofNat n)))
        | x => x) := by
  intro k l
  induction l generalizing k with
  | nil => intro h; cases h
  | cons e rest ih =>
    intro h
    rcases List.mem_cons.1 h with h | h
    · exact ⟨e, List.mem_cons_self e rest, k, h⟩
    · obtain ⟨e1, he1, n, hv⟩ := ih h
      exact ⟨e1, List.mem_cons_of_mem _ he1, n, hv⟩

/-- Claim C3: a successful corrector run keeps exactly the input entries
whose IST timing date string starts with `"2026"`, in their original
relative order (each possibly corrected), and reassigns identifiers to the
contiguous sequence `1..M` where `M` is the number of retained entries. -/
theorem corrector_filter_renumber (d d2 : Json) (es : List Json)
    (h : fixData ist_corrections d = .ok d2)
    (hek : pureGetKey d "ekadashis" = some (.arr es)) :
    pureGetKey d2 "ekadashis" =
      some (.arr (specRenumber 1 ((es.filter specKeep).map (specCorrect ist_corrections)))) ∧
    (specRenumber 1 ((es.filter specKeep).map (specCorrect ist_corrections))).map
        (fun e2 => pureGetKey e2 "id") =
      (List.range' 1 ((es.filter specKeep).map (specCorrect ist_corrections)).length).map
        (fun n => some (Json.num (Int.ofNat n))) := by
  obtain ⟨kvs1, eksJ, es', fs, rs, hmeta, hlook, hiter, hfilt, hren, hd2⟩ := fixData_ok_inv h
  obtain ⟨kvs, tzk, istk, hd, _, _, hkvs1⟩ := fixMeta_ok_inv hmeta
  subst hd
  injection hkvs1 with hkvs1'
  subst hkvs1'
  have hlk : lookupKvs kvs "ekadashis" = some (.arr es) := hek
  rw [lookupKvs_setEntry_ne _ "timezones" "ekadashis" _ (by decide),
    lookupKvs_setEntry_ne _ "date_range" "ekadashis" _ (by decide), hlk] at hlook
  injection hlook with heks
  subst heks
  have hes' : es' = es := by
    have : (Except.ok es : Except PyErr (List Json)) = .ok es' := hiter
    injection this with h'
    exact h'.symm
  subst hes'
  have hfs := filterEkadashis_ok_eq hfilt
  have hrs := renumber_ok_eq hren
  subst hd2
  refine ⟨?_, ?_⟩
  · show lookupKvs (setEntry _ "ekadashis" (.arr rs)) "ekadashis" = _
    rw [lookupKvs_setEntry_self, hrs, hfs]
  · rw [← hfs]
    refine specRenumber_ids 1 fs ?_
    intro e2 h2
    obtain ⟨kvs0, h0, _, _⟩ := filterEkadashis_good ist_corrections_corrOk hfilt e2 h2
    exact ⟨kvs0, h0⟩

/-- Witness for C3: a two-entry document (one 2026 entry, one 2025 entry);
the corrector keeps only the 2026 entry and renumbers it to identifier 1. -/
theorem corrector_filter_renumber_witness :
    pureGetKey (Json.obj
      [("timezones", .obj [("IST", .obj [("cities", .arr [.str "India"])])]),
       ("ekadashis", .arr
         [.obj [("id", .num 1),
                ("name", .obj [("en", .str "Kamada Ekadashi")]),
                ("timing", .obj [("IST", .obj [("date", .str "2026-03-29")])])]]),
       ("date_range", .obj [("start", .str "2026-01-01"), ("end", .str "2026-12-31")])])
      "ekadashis" =
    some (.arr (specRenumber 1
      (([Json.obj [("id", .num 7),
                   ("name", .obj [("en", .str "Kamada Ekadashi")]),
                   ("timing", .obj [("IST", .obj [("date", .str "2026-03-29")])])],
         Json.obj [("id", .num 8),
                   ("name", .obj [("en", .str "Papmochani Ekadashi")]),
                   ("timing", .obj [("IST", .obj [("date", .str "2025-03-25")])])]].filter
          specKeep).map (specCorrect ist_corrections)))) :=
  (corrector_filter_renumber
    (Json.obj
      [("timezones", .obj [("IST", .obj [("cities", .arr [.str "India"])])]),
       ("ekadashis", .arr
         [.obj [("id", .num 7),
                ("name", .obj [("en", .str "Kamada Ekadashi")]),
                ("timing", .obj [("IST", .obj [("date", .str "2026-03-29")])])],
          .obj [("id", .num 8),
                ("name", .obj [("en", .str "Papmochani Ekadashi")]),
                ("timing", .obj [("IST", .obj [("date", .str "2025-03-25")])])]]),
       ("date_range", .obj [("start", .str "2026-01-01"), ("end", .str "2026-12-31")])])
    (Json.obj
      [("timezones", .obj [("IST", .obj [("cities", .arr [.str "India"])])]),
       ("ekadashis", .arr
         [.obj [("id", .num 1),
                ("name", .obj [("en", .str "Kamada Ekadashi")]),
                ("timing", .obj [("IST", .obj [("date", .str "2026-03-29")])])]]),
       ("date_range", .obj [("start", .str "2026-01-01"), ("end", .str "2026-12-31")])])
    [Json.obj [("id", .num 7),
               ("name", .obj [("en", .str "Kamada Ekadashi")]),
               ("timing", .obj [("IST", .obj [("date", .str "2026-03-29")])])],
     Json.obj [("id", .num 8),
               ("name", .obj [("en", .str "Papmochani Ekadashi")]),
               ("timing", .obj [("IST", .obj [("date", .str "2025-03-25")])])]]
    rfl rfl).1

/-- Claim C9: when the loop body keeps an entry (corrected or not), every
key of the entry other than `"timing"` is unchanged, and inside the timing
block every timezone sub-record other than `"IST"` is unchanged. -/
theorem corrector_correction_frame (tbl : List (String × Json)) (e e2 : Json)
    (h : processEkadashi tbl e = .ok (some e2)) :
    (∀ k2, k2 ≠ "timing" → pureGetKey e2 k2 = pureGetKey e k2) ∧
    (∀ k2, k2 ≠ "IST" →
      ((pureGetKey e2 "timing").bind fun t => pureGetKey t k2) =
      ((pureGetKey e "timing").bind fun t => pureGetKey t k2)) := by
  obtain ⟨kvs, he, hcase⟩ := processEkadashi_ok_inv h
  subst he
  rcases hcase with ⟨hnone, _, _⟩ | ⟨e3, hsome, hk, _, he3⟩
  · exact absurd hnone (by simp)
  · injection hsome with h23
    subst h23
    rw [he3]
    unfold specCorrect
    rcases hsn : specName (.obj kvs) with _ | b | n | s | xs | ks
    · exact ⟨fun _ _ => rfl, fun _ _ => rfl⟩
    · exact ⟨fun _ _ => rfl, fun _ _ => rfl⟩
    · exact ⟨fun _ _ => rfl, fun _ _ => rfl⟩
    · show (∀ k2, k2 ≠ "timing" →
          pureGetKey (match lookupKvs tbl s with
            | some c => setTimingIst (.obj kvs) c
            | none => .obj kvs) k2 = pureGetKey (.obj kvs) k2) ∧
        (∀ k2, k2 ≠ "IST" →
          ((pureGetKey (match lookupKvs tbl s with
            | some c => setTimingIst (.obj kvs) c
            | none => .obj kvs) "timing").bind fun t => pureGetKey t k2) =
          ((pureGetKey (.obj kvs) "timing").bind fun t => pureGetKey t k2))
      rcases hc : lookupKvs tbl s with _ | c
      · exact ⟨fun _ _ => rfl, fun _ _ => rfl⟩
      · show (∀ k2, k2 ≠ "timing" →
            pureGetKey (setTimingIst (.obj kvs) c) k2 = pureGetKey (.obj kvs) k2) ∧
          (∀ k2, k2 ≠ "IST" →
            ((pureGetKey (setTimingIst (.obj kvs) c) "timing").bind fun t => pureGetKey t k2) =
            ((pureGetKey (.obj kvs) "timing").bind fun t => pureGetKey t k2))
        obtain ⟨tk, ik, ds, h1, h2, h3, h4⟩ := specKeep_shape kvs hk
        have hst : setTimingIst (.obj kvs) c =
            .obj (setEntry kvs "timing" (.obj (setEntry tk "IST" c))) := by
          unfold setTimingIst
          show (match lookupKvs kvs "timing" with
            | some (.obj tk') => Json.obj (setEntry kvs "timing" (.obj (setEntry tk' "IST" c)))
            | _ => Json.obj kvs) = _
          rw [h1]
        rw [hst]
        constructor
        · intro k2 hk2
          show lookupKvs (setEntry kvs "timing" (.obj (setEntry tk "IST" c))) k2 =
            lookupKvs kvs k2
          exact lookupKvs_setEntry_ne kvs "timing" k2 _ (Ne.symm hk2)
        · intro k2 hk2
          show ((lookupKvs (setEntry kvs "timing" (.obj (setEntry tk "IST" c))) "timing").bind
              fun t => pureGetKey t k2) =
            ((lookupKvs kvs "timing").bind fun t => pureGetKey t k2)
          rw [lookupKvs_setEntry_self, h1]
          show pureGetKey (.obj (setEntry tk "IST" c)) k2 = pureGetKey (.obj tk) k2
          exact lookupKvs_setEntry_ne tk "IST" k2 c (Ne.symm hk2)
    · exact ⟨fun _ _ => rfl, fun _ _ => rfl⟩
    · exact ⟨fun _ _ => rfl, fun _ _ => rfl⟩

/-- Witness for C9: correcting the 2026 Mohini entry leaves its PST
sub-record and its name untouched. -/
theorem corrector_correction_frame_witness :
    pureGetKey (Json.obj
      [("name", .obj [("en", .str "Mohini Ekadashi")]),
       ("timing", .obj
         [("IST", .obj
           [("date", .str "2026-04-27"),
            ("fasting_start", .str "2026-04-27T05:36:00+05:30"),
            ("parana_start", .str "2026-04-28T05:35:00+05:30"),
            ("parana_end", .str "2026-04-28T09:47:00+05:30")]),
          ("PST", .obj [("date", .str "2026-04-26")])])]) "name" =
      pureGetKey (Json.obj
        [("name", .obj [("en", .str "Mohini Ekadashi")]),
         ("timing", .obj
           [("IST", .obj [("date", .str "2026-04-26")]),
            ("PST", .obj [("date", .str "2026-04-26")])])]) "name" ∧
    ((pureGetKey (Json.obj
      [("name", .obj [("en", .str "Mohini Ekadashi")]),
       ("timing", .obj
         [("IST", .obj
           [("date", .str "2026-04-27"),
            ("fasting_start", .str "2026-04-27T05:36:00+05:30"),
            ("parana_start", .str "2026-04-28T05:35:00+05:30"),
            ("parana_end", .str "2026-04-28T09:47:00+05:30")]),
          ("PST", .obj [("date", .str "2026-04-26")])])]) "timing").bind
        fun t => pureGetKey t "PST") =
      ((pureGetKey (Json.obj
        [("name", .obj [("en", .str "Mohini Ekadashi")]),
         ("timing", .obj
           [("IST", .obj [("date", .str "2026-04-26")]),
            ("PST", .obj [("date", .str "2026-04-26")])])]) "timing").bind
        fun t => pureGetKey t "PST") := by
  have h := corrector_correction_frame ist_corrections
    (Json.obj
      [("name", .obj [("en", .str "Mohini Ekadashi")]),
       ("timing", .obj
         [("IST", .obj [("date", .str "2026-04-26")]),
          ("PST", .obj [("date", .str "2026-04-26")])])])
    (Json.obj
      [("name", .obj [("en", .str "Mohini Ekadashi")]),
       ("timing", .obj
         [("IST", .obj
           [("date", .str "2026-04-27"),
            ("fasting_start", .str "2026-04-27T05:36:00+05:30"),
            ("parana_start", .str "2026-04-28T05:35:00+05:30"),
            ("parana_end", .str "2026-04-28T09:47:00+05:30")]),
          ("PST", .obj [("date", .str "2026-04-26")])])]) rfl
  exact ⟨h.1 "name" (by decide), h.2 "PST" (by decide)⟩

/-- Counterexample for C2 as stated: the correction is NOT applied before
the year filter.  The input has one event whose English name
`"Mohini Ekadashi"` is a key of the correction table but whose IST date is
in 2025.  Were the correction applied before the filter, the event's IST
record would become the table record (date `"2026-04-27"`) and the event
would be retained corrected; the code instead tests the original date
first and removes the event, so the output event list is empty. -/
theorem correction_before_filter_cex :
    (lookupKvs ist_corrections "Mohini Ekadashi").isSome = true ∧
    (fixData ist_corrections (.obj
      [("timezones", .obj [("IST", .obj [])]),
       ("ekadashis", .arr
         [.obj [("name", .obj [("en", .str "Mohini Ekadashi")]),
                ("timing", .obj [("IST", .obj [("date", .str "2025-05-01")])])]])])).map
      (fun d2 => pureGetKey d2 "ekadashis") = .ok (some (.arr [])) :=
  ⟨rfl, rfl⟩

/-- Claim C2 amended: the correction is applied to exactly the events that
pass the year filter on their original IST date; consequently, in the
corrector's output, every event whose English name is a key of the
correction table carries the literal table record as its IST sub-record
(events with a table name but a non-2026 original date are removed, not
corrected). -/
theorem corrector_correction_applied (d d2 : Json) (out : List Json) (e2 : Json)
    (s : String) (c : Json)
    (h : fixData ist_corrections d = .ok d2)
    (hout : pureGetKey d2 "ekadashis" = some (.arr out))
    (he2 : e2 ∈ out)
    (hname : specName e2 = .str s)
    (hc : lookupKvs ist_corrections s = some c) :
    ((pureGetKey e2 "timing").bind fun t => pureGetKey t "IST") = some c := by
  obtain ⟨kvs1, eksJ, es', fs, rs, hmeta, hlook, hiter, hfilt, hren, hd2⟩ := fixData_ok_inv h
  subst hd2
  have hout2 : lookupKvs (setEntry kvs1 "ekadashis" (.arr rs)) "ekadashis" =
      some (.arr out) := hout
  rw [lookupKvs_setEntry_self] at hout2
  injection hout2 with harr
  injection harr with hro
  subst hro
  have hrs := renumber_ok_eq hren
  have hfs := filterEkadashis_ok_eq hfilt
  have hgood := filterEkadashis_good ist_corrections_corrOk hfilt
  obtain ⟨e1, he1, n, he2v⟩ := mem_specRenumber (hrs ▸ he2)
  obtain ⟨kvs0, he1o, hk1, hn1⟩ := hgood e1 he1
  subst he1o
  have hname0 : specName (.obj kvs0) = .str s := by
    rw [he2v, specName_setEntry_ne kvs0 "id" _ (by decide)] at hname
    exact hname
  rw [hfs] at he1
  obtain ⟨e0, he0mem, he0⟩ := List.mem_map.1 he1
  have hname00 : specName e0 = .str s := by
    have h5 := specName_specCorrect ist_corrections e0
    rw [he0, hname0] at h5
    exact h5.symm
  have hk0 : specKeep e0 = true := (List.mem_filter.1 he0mem).2
  obtain ⟨kvs00, he00⟩ := specKeep_is_obj hk0
  subst he00
  obtain ⟨tk, ik, ds, ht1, ht2, ht3, ht4⟩ := specKeep_shape kvs00 hk0
  have hsc : specCorrect ist_corrections (.obj kvs00) =
      .obj (setEntry kvs00 "timing" (.obj (setEntry tk "IST" c))) := by
    unfold specCorrect
    rw [hname00]
    show (match lookupKvs ist_corrections s with
      | some c2 => setTimingIst (.obj kvs00) c2
      | none => .obj kvs00) = _
    rw [hc]
    show setTimingIst (.obj kvs00) c = _
    unfold setTimingIst
    show (match lookupKvs kvs00 "timing" with
      | some (.obj tk2) => Json.obj (setEntry kvs00 "timing" (.obj (setEntry tk2 "IST" c)))
      | _ => Json.obj kvs00) = _
    rw [ht1]
  have hkvs0 : Json.obj kvs0 = .obj (setEntry kvs00 "timing" (.obj (setEntry tk "IST" c))) := by
    rw [← he0, hsc]
  injection hkvs0 with hkvs0'
  subst hkvs0'
  rw [he2v]
  show ((lookupKvs (setEntry (setEntry kvs00 "timing" (.obj (setEntry tk "IST" c)))
      "id" (.num (Int.ofNat n))) "timing").bind fun t => pureGetKey t "IST") = some c
  rw [lookupKvs_setEntry_ne _ "id" "timing" _ (by decide), lookupKvs_setEntry_self]
  show pureGetKey (.obj (setEntry tk "IST" c)) "IST" = some c
  exact lookupKvs_setEntry_self tk "IST" c

/-- Witness for C2's amended theorem: a 2026-dated Mohini entry comes out
of the corrector with the literal table record as its IST sub-record. -/
theorem corrector_correction_applied_witness :
    ((pureGetKey (Json.obj
      [("name", .obj [("en", .str "Mohini Ekadashi")]),
       ("timing", .obj
         [("IST", .obj
           [("date", .str "2026-04-27"),
            ("fasting_start", .str "2026-04-27T05:36:00+05:30"),
            ("parana_start", .str "2026-04-28T05:35:00+05:30"),
            ("parana_end", .str "2026-04-28T09:47:00+05:30")])]),
       ("id", .num 1)]) "timing").bind fun t => pureGetKey t "IST") =
    some (.obj
      [("date", .str "2026-04-27"),
       ("fasting_start", .str "2026-04-27T05:36:00+05:30"),
       ("parana_start", .str "2026-04-28T05:35:00+05:30"),
       ("parana_end", .str "2026-04-28T09:47:00+05:30")]) :=
  corrector_correction_applied
    (Json.obj
      [("timezones", .obj [("IST", .obj [])]),
       ("ekadashis", .arr
         [.obj [("name", .obj [("en", .str "Mohini Ekadashi")]),
                ("timing", .obj [("IST", .obj [("date", .str "2026-04-26")])])]])])
    (Json.obj
      [("timezones", .obj [("IST", .obj [("cities", .arr [.str "India"])])]),
       ("ekadashis", .arr
         [.obj [("name", .obj [("en", .str "Mohini Ekadashi")]),
                ("timing", .obj
                  [("IST", .obj
                    [("date", .str "2026-04-27"),
                     ("fasting_start", .str "2026-04-27T05:36:00+05:30"),
                     ("parana_start", .str "2026-04-28T05:35:00+05:30"),
                     ("parana_end", .str "2026-04-28T09:47:00+05:30")])]),
                ("id", .num 1)]]),
       ("date_range", .obj [("start", .str "2026-01-01"), ("end", .str "2026-12-31")])])
    [Json.obj
      [("name", .obj [("en", .str "Mohini Ekadashi")]),
       ("timing", .obj
         [("IST", .obj
           [("date", .str "2026-04-27"),
            ("fasting_start", .str "2026-04-27T05:36:00+05:30"),
            ("parana_start", .str "2026-04-28T05:35:00+05:30"),
            ("parana_end", .str "2026-04-28T09:47:00+05:30")])]),
       ("id", .num 1)]]
    (Json.obj
      [("name", .obj [("en", .str "Mohini Ekadashi")]),
       ("timing", .obj
         [("IST", .obj
           [("date", .str "2026-04-27"),
            ("fasting_start", .str "2026-04-27T05:36:00+05:30"),
            ("parana_start", .str "2026-04-28T05:35:00+05:30"),
            ("parana_end", .str "2026-04-28T09:47:00+05:30")])]),
       ("id", .num 1)])
    "Mohini Ekadashi"
    (Json.obj
      [("date", .str "2026-04-27"),
       ("fasting_start", .str "2026-04-27T05:36:00+05:30"),
       ("parana_start", .str "2026-04-28T05:35:00+05:30"),
       ("parana_end", .str "2026-04-28T09:47:00+05:30")])
    rfl rfl (List.mem_singleton.2 rfl) rfl rfl

/-- Counterexample for C10 as stated: the filter/correction loop is not
total over entries of arbitrary shape — an entry whose `timing` value is a
string makes `.get('IST', {})` raise `AttributeError`, aborting the whole
corrector run. -/
theorem corrector_loop_not_total :
    processEkadashi ist_corrections (.obj [("timing", .str "oops")]) =
      .error .attributeError ∧
    fixData ist_corrections (.obj
      [("timezones", .obj [("IST", .obj [])]),
       ("ekadashis", .arr [.obj [("timing", .str "oops")]])]) =
      .error .attributeError :=
  ⟨rfl, rfl⟩

/-- Claim C10 amended: a dict entry whose name chain is evaluable
(`nameGetOk`) and which lacks the `timing` key, lacks the `IST` sub-record,
or lacks the `date` field, is treated as having the empty date string,
classified as a year mismatch and removed without error; totality does not
extend to entries of arbitrary shape (see the counterexample). -/
theorem corrector_loop_missing_keys (tbl : List (String × Json))
    (kvs tk ik : List (String × Json)) (hn : nameGetOk (.obj kvs) = true) :
    (lookupKvs kvs "timing" = none → processEkadashi tbl (.obj kvs) = .ok none) ∧
    (lookupKvs kvs "timing" = some (.obj tk) → lookupKvs tk "IST" = none →
      processEkadashi tbl (.obj kvs) = .ok none) ∧
    (lookupKvs kvs "timing" = some (.obj tk) → lookupKvs tk "IST" = some (.obj ik) →
      lookupKvs ik "date" = none → processEkadashi tbl (.obj kvs) = .ok none) := by
  obtain ⟨nk, hnk⟩ := nameGetOk_inv kvs hn
  refine ⟨fun h1 => ?_, fun h1 h2 => ?_, fun h1 h2 h3 => ?_⟩
  · unfold processEkadashi
    rw [jGet_obj, h1]
    simp only [Option.getD_none, ok_bind, jGet_obj, lookupKvs]
    rw [show jStartsWith (Json.str "") "2026" = .ok false from rfl]
    simp only [ok_bind]
    rw [hnk, jGet_obj]
    simp only [ok_bind]
    rfl
  · unfold processEkadashi
    rw [jGet_obj, h1]
    simp only [Option.getD_some, ok_bind]
    rw [jGet_obj, h2]
    simp only [Option.getD_none, ok_bind, jGet_obj, lookupKvs]
    rw [show jStartsWith (Json.str "") "2026" = .ok false from rfl]
    simp only [ok_bind]
    rw [hnk, jGet_obj]
    simp only [ok_bind]
    rfl
  · unfold processEkadashi
    rw [jGet_obj, h1]
    simp only [Option.getD_some, ok_bind]
    rw [jGet_obj, h2]
    simp only [Option.getD_some, ok_bind]
    rw [jGet_obj, h3]
    simp only [Option.getD_none, ok_bind]
    rw [show jStartsWith (Json.str "") "2026" = .ok false from rfl]
    simp only [ok_bind]
    rw [jGet_obj, hnk]
    simp only [ok_bind]
    rw [jGet_obj]
    simp only [ok_bind]
    rfl

/-- Witness for C10's amended theorem: an entry with only a name is removed
cleanly. -/
theorem corrector_loop_missing_keys_witness :
    processEkadashi ist_corrections (.obj [("name", .obj [("en", .str "X")])]) = .ok none :=
  (corrector_loop_missing_keys ist_corrections
    [("name", .obj [("en", .str "X")])] [] [] rfl).1 rfl

/-- Witness for C7 at a concrete document. -/
theorem corrector_idempotent_witness :
    fixData [] (Json.obj
      [("timezones", .obj [("IST", .obj [("cities", .arr [.str "India"])])]),
       ("ekadashis", .arr []),
       ("date_range", .obj [("start", .str "2026-01-01"), ("end", .str "2026-12-31")])]) =
    .ok (Json.obj
      [("timezones", .obj [("IST", .obj [("cities", .arr [.str "India"])])]),
       ("ekadashis", .arr []),
       ("date_range", .obj [("start", .str "2026-01-01"), ("end", .str "2026-12-31")])]) :=
  corrector_idempotent
    (Json.obj [("timezones", .obj [("IST", .obj [])]), ("ekadashis", .arr [])]) _ rfl

end Ekadashi



